import Mathlib

/-!
# Verification of NeMo NLP overrides (`nemo/collections/nlp/parts/nlp_overrides.py`)

Shallow embedding of the model-parallel `GradScaler`, the
`NLPSaveRestoreConnector.save_to` checkpoint protocol and the
`GlobalBatchDataFetcher`, together with proofs about their behaviour.

Overflow flags (`found_inf` values) are nonnegative counts; a flag is "set"
when it is nonzero, matching the float tensors of the Python code where any
positive value signals an overflow.  Loss scales are embedded as rationals.
-/

namespace NeMo

/-- Embeds `torch.distributed.all_reduce(t, op=ReduceOp.MAX, group)` as observed
by one participant: the participant ends up with the maximum of its own value
and all peer values in the group. -/
def allReduceMax (localVal : ℕ) (peerVals : List ℕ) : ℕ :=
  peerVals.foldr max localVal

/-- Embeds `torch._amp_update_scale_(scale, growth_tracker, found_inf_combined,
growth_factor, backoff_factor, growth_interval)`, the external scale-update
primitive invoked by `GradScaler.update` (semantics as documented in the
`update` docstring of the source: skipped steps multiply the scale by the
backoff factor and reset the tracker; `growth_interval` consecutive unskipped
iterations multiply the scale by the growth factor and reset the tracker). -/
def ampUpdateScale (scale : ℚ) (growthTracker : ℕ) (foundInfCombined : ℕ)
    (growthFactor backoffFactor : ℚ) (growthInterval : ℕ) : ℚ × ℕ :=
  if foundInfCombined ≠ 0 then
    (scale * backoffFactor, 0)
  else
    let successful := growthTracker + 1
    if successful = growthInterval then
      (scale * growthFactor, 0)
    else
      (scale, successful)

/-- State of `GradScaler` (nlp_overrides.py lines 275-378): the scale tensor,
the growth tracker, the constructor parameters, and
`_per_optimizer_states[..]["found_inf_per_device"]` flattened to one list of
per-device flag lists (one entry per optimizer stepped this iteration). -/
structure GradScaler where
  scale : ℚ
  growthTracker : ℕ
  growthFactor : ℚ
  backoffFactor : ℚ
  growthInterval : ℕ
  enabled : Bool
  perOptimizerFoundInfs : List (List ℕ)
  deriving Repr, DecidableEq

/-- `GradScaler.__init__` with the source defaults
`init_scale=2.0 ** 16, growth_factor=2.0, backoff_factor=0.5,
growth_interval=2000, enabled=True`; no overflow data recorded yet. -/
def GradScaler.init (initScale : ℚ := 65536) (growthFactor : ℚ := 2)
    (backoffFactor : ℚ := 1/2) (growthInterval : ℕ := 2000)
    (enabled : Bool := true) : GradScaler :=
  { scale := initScale
    growthTracker := 0
    growthFactor := growthFactor
    backoffFactor := backoffFactor
    growthInterval := growthInterval
    enabled := enabled
    perOptimizerFoundInfs := [] }

/-- Embeds `GradScaler._maybe_opt_step` (lines 293-304).  `step` is the
optimizer's step; `foundInfPerDevice` the values of
`optimizer_state["found_inf_per_device"]`; `peerFoundInfSums` the summed flags
contributed by the other members of the model-parallel group to the
max-all-reduce.  Returns `retval` together with the number of times the
optimizer step was invoked. -/
def maybeOptStep {α : Type} (step : Unit → α)
    (foundInfPerDevice : List ℕ) (peerFoundInfSums : List ℕ) : Option α × ℕ :=
  let found_inf := foundInfPerDevice.sum
  let reduced := allReduceMax found_inf peerFoundInfSums
  if reduced = 0 then (some (step ()), 1) else (none, 0)

/-- The combined overflow value computed by `GradScaler.update` (lines
344-366): each flattened local flag is max-all-reduced across the
model-parallel group (peer `j`-th flags supplied by `peerFlags`), and the
reduced values are accumulated into `found_inf_combined` by addition. -/
def foundInfCombined (localFlags : List ℕ) (peerFlags : List (List ℕ)) : ℕ :=
  ((List.range localFlags.length).map
    (fun j => allReduceMax (localFlags.getD j 0)
      (peerFlags.map (fun p => p.getD j 0)))).sum

/-- Embeds `GradScaler.update` (lines 306-378).  Disabled: no-op.  With
`new_scale`: the scale tensor is overwritten.  Otherwise the recorded
`found_inf` flags are gathered (an `AssertionError` is raised when none were
recorded), combined across the model-parallel group, and fed to
`torch._amp_update_scale_`.  The per-optimizer states are cleared on every
path that reaches the end of the method. -/
def GradScaler.update (s : GradScaler) (peerFlags : List (List ℕ))
    (newScale : Option ℚ) : Except String GradScaler :=
  if s.enabled = false then
    .ok s
  else
    match newScale with
    | some v => .ok { s with scale := v, perOptimizerFoundInfs := [] }
    | none =>
      let found_infs := s.perOptimizerFoundInfs.flatten
      if found_infs.length > 0 then
        let combined := foundInfCombined found_infs peerFlags
        let p := ampUpdateScale s.scale s.growthTracker combined
          s.growthFactor s.backoffFactor s.growthInterval
        .ok { s with scale := p.1, growthTracker := p.2,
                     perOptimizerFoundInfs := [] }
      else
        .error "No inf checks were recorded prior to update."

/-- A scale-controller operation: a `scaler.step` call recording one
optimizer's `found_inf_per_device` flags, or an `update` call. -/
inductive ScalerOp where
  | step (flags : List ℕ) : ScalerOp
  | update (newScale : Option ℚ) (peerFlags : List (List ℕ)) : ScalerOp
  deriving Repr, DecidableEq

/-- Runs one operation on a `GradScaler`.  A failed `update` (the assertion on
empty overflow data) leaves the state unchanged. -/
def GradScaler.runOp (s : GradScaler) (op : ScalerOp) : GradScaler :=
  match op with
  | .step flags =>
      { s with perOptimizerFoundInfs := s.perOptimizerFoundInfs ++ [flags] }
  | .update ns pf =>
      match s.update pf ns with
      | .ok t => t
      | .error _ => s

/-- Runs a sequence of scale-controller operations. -/
def GradScaler.runOps (s : GradScaler) : List ScalerOp → GradScaler
  | [] => s
  | op :: ops => (s.runOp op).runOps ops

/-- C1: for an enabled scaler, `update` with no manual new scale performs the
scale-state transition: a nonzero group-reduced overflow flag multiplies the
scale by the backoff factor and resets the growth tracker; a zero flag with
`growth_tracker + 1 < growth_interval` leaves the scale unchanged and
increments the tracker; a zero flag with `growth_tracker + 1 =
growth_interval` multiplies the scale by the growth factor and resets the
tracker. -/
theorem update_scale_transition (s : GradScaler) (peerFlags : List (List ℕ))
    (henabled : s.enabled = true)
    (hrec : 0 < s.perOptimizerFoundInfs.flatten.length) :
    (foundInfCombined s.perOptimizerFoundInfs.flatten peerFlags ≠ 0 →
      s.update peerFlags none =
        .ok { s with scale := s.scale * s.backoffFactor, growthTracker := 0,
                     perOptimizerFoundInfs := [] }) ∧
    (foundInfCombined s.perOptimizerFoundInfs.flatten peerFlags = 0 →
      s.growthTracker + 1 < s.growthInterval →
      s.update peerFlags none =
        .ok { s with growthTracker := s.growthTracker + 1,
                     perOptimizerFoundInfs := [] }) ∧
    (foundInfCombined s.perOptimizerFoundInfs.flatten peerFlags = 0 →
      s.growthTracker + 1 = s.growthInterval →
      s.update peerFlags none =
        .ok { s with scale := s.scale * s.growthFactor, growthTracker := 0,
                     perOptimizerFoundInfs := [] }) := by
  have hrec2 : s.perOptimizerFoundInfs.flatten.length ≠ 0 :=
    Nat.pos_iff_ne_zero.mp hrec
  simp only [List.length_flatten] at hrec2
  refine ⟨fun hinf => ?_, fun hinf hlt => ?_, fun hinf heq => ?_⟩
  · simp [GradScaler.update, henabled, hrec2, ampUpdateScale, hinf]
  · simp [GradScaler.update, henabled, hrec2, ampUpdateScale, hinf,
      Nat.ne_of_lt hlt]
  · simp [GradScaler.update, henabled, hrec2, ampUpdateScale, hinf, heq]

/-- Witness for C1: all three transitions at concrete scaler states. -/
theorem update_scale_transition_witness :
    GradScaler.update ⟨4, 5, 2, 1/2, 2000, true, [[1]]⟩ [] none =
      .ok ⟨2, 0, 2, 1/2, 2000, true, []⟩ ∧
    GradScaler.update ⟨4, 5, 2, 1/2, 2000, true, [[0]]⟩ [] none =
      .ok ⟨4, 6, 2, 1/2, 2000, true, []⟩ ∧
    GradScaler.update ⟨4, 1999, 2, 1/2, 2000, true, [[0]]⟩ [] none =
      .ok ⟨8, 0, 2, 1/2, 2000, true, []⟩ := by
  refine ⟨?_, ?_, ?_⟩
  · have h := (update_scale_transition ⟨4, 5, 2, 1/2, 2000, true, [[1]]⟩ []
      rfl (by decide)).1 (by decide)
    rw [h]
    norm_num
  · have h := (update_scale_transition ⟨4, 5, 2, 1/2, 2000, true, [[0]]⟩ []
      rfl (by decide)).2.1 (by decide) (by decide)
    rw [h]
  · have h := (update_scale_transition ⟨4, 1999, 2, 1/2, 2000, true, [[0]]⟩ []
      rfl (by decide)).2.2 (by decide) (by decide)
    rw [h]
    norm_num

/-- C2: `_maybe_opt_step` invokes the optimizer step exactly once and returns
its result precisely when the max-reduction over the model-parallel group of
the summed per-device overflow flags is zero; when the reduced value is
nonzero it performs no step invocation and returns `None`. -/
theorem maybeOptStep_gates_step {α : Type} (step : Unit → α)
    (foundInfPerDevice : List ℕ) (peerFoundInfSums : List ℕ) :
    (maybeOptStep step foundInfPerDevice peerFoundInfSums = (some (step ()), 1) ↔
      allReduceMax foundInfPerDevice.sum peerFoundInfSums = 0) ∧
    (maybeOptStep step foundInfPerDevice peerFoundInfSums = (none, 0) ↔
      allReduceMax foundInfPerDevice.sum peerFoundInfSums ≠ 0) := by
  unfold maybeOptStep
  by_cases h : allReduceMax foundInfPerDevice.sum peerFoundInfSums = 0 <;>
    simp [h]

/-- C6: for an enabled scaler, `update` without a manual new scale fails with
the precondition error when no `found_inf` flags were recorded this
iteration. -/
theorem update_requires_recorded_flags (s : GradScaler)
    (peerFlags : List (List ℕ)) (henabled : s.enabled = true)
    (hempty : s.perOptimizerFoundInfs.flatten = []) :
    s.update peerFlags none =
      .error "No inf checks were recorded prior to update." := by
  simp [GradScaler.update, henabled, hempty]

/-- Witness for C6: a freshly constructed enabled scaler with no recorded
flags. -/
theorem update_requires_recorded_flags_witness :
    GradScaler.update GradScaler.init [] none =
      .error "No inf checks were recorded prior to update." :=
  update_requires_recorded_flags GradScaler.init [] rfl rfl

/-- The overflow decision as worded by the spec: each worker first combines
its own flags into one flag by logical OR, and that single combined flag is
max-reduced once across the model-parallel group. -/
def specCombinedOverflow (localFlags : List ℕ) (peerFlags : List (List ℕ)) : ℕ :=
  allReduceMax (if localFlags.all (· == 0) then 0 else 1)
    (peerFlags.map fun p => if p.all (· == 0) then 0 else 1)

theorem allReduceMax_eq_zero_iff (x : ℕ) (xs : List ℕ) :
    allReduceMax x xs = 0 ↔ x = 0 ∧ ∀ y ∈ xs, y = 0 := by
  induction xs with
  | nil => simp [allReduceMax]
  | cons a as ih =>
    simp only [allReduceMax, List.foldr_cons, Nat.max_eq_zero_iff,
      List.mem_cons] at *
    rw [ih]
    constructor
    · rintro ⟨ha, hx, hall⟩
      exact ⟨hx, fun y hy => hy.elim (fun h => h ▸ ha) (hall y)⟩
    · rintro ⟨hx, hall⟩
      exact ⟨hall a (Or.inl rfl), hx, fun y hy => hall y (Or.inr hy)⟩

theorem nat_sum_eq_zero_iff (l : List ℕ) : l.sum = 0 ↔ ∀ x ∈ l, x = 0 := by
  induction l with
  | nil => simp
  | cons a as ih => simp [Nat.add_eq_zero, ih]

theorem forall_getD_eq_zero_iff (l : List ℕ) :
    (∀ j < l.length, l.getD j 0 = 0) ↔ ∀ x ∈ l, x = 0 := by
  constructor
  · intro h x hx
    obtain ⟨j, hj, rfl⟩ := List.mem_iff_getElem.mp hx
    have hj2 := h j hj
    rwa [List.getD_eq_getElem l 0 hj] at hj2
  · intro h j hj
    rw [List.getD_eq_getElem l 0 hj]
    exact h _ (List.getElem_mem hj)

theorem foundInfCombined_eq_zero_iff (localFlags : List ℕ)
    (peerFlags : List (List ℕ))
    (hlen : ∀ p ∈ peerFlags, p.length = localFlags.length) :
    foundInfCombined localFlags peerFlags = 0 ↔
      (∀ x ∈ localFlags, x = 0) ∧ ∀ p ∈ peerFlags, ∀ x ∈ p, x = 0 := by
  unfold foundInfCombined
  rw [nat_sum_eq_zero_iff]
  simp only [List.mem_map, List.mem_range]
  constructor
  · intro h
    have h2 : ∀ j < localFlags.length,
        localFlags.getD j 0 = 0 ∧ ∀ p ∈ peerFlags, p.getD j 0 = 0 := by
      intro j hj
      have := h _ ⟨j, hj, rfl⟩
      rw [allReduceMax_eq_zero_iff] at this
      refine ⟨this.1, fun p hp => this.2 _ (List.mem_map.mpr ⟨p, hp, rfl⟩)⟩
    refine ⟨(forall_getD_eq_zero_iff localFlags).mp fun j hj => (h2 j hj).1,
      fun p hp => (forall_getD_eq_zero_iff p).mp fun j hj => ?_⟩
    exact (h2 j (hlen p hp ▸ hj)).2 p hp
  · rintro ⟨hl, hp⟩ y ⟨j, hj, rfl⟩
    rw [allReduceMax_eq_zero_iff]
    refine ⟨(forall_getD_eq_zero_iff localFlags).mpr hl j hj, ?_⟩
    intro y hy
    obtain ⟨p, hpmem, rfl⟩ := List.mem_map.mp hy
    exact (forall_getD_eq_zero_iff p).mpr (hp p hpmem) j (hlen p hpmem ▸ hj)

theorem foundInfCombined_ne_zero_iff (localFlags : List ℕ)
    (peerFlags : List (List ℕ))
    (hlen : ∀ p ∈ peerFlags, p.length = localFlags.length) :
    foundInfCombined localFlags peerFlags ≠ 0 ↔
      ∃ w ∈ localFlags :: peerFlags, ∃ x ∈ w, x ≠ 0 := by
  rw [ne_eq, foundInfCombined_eq_zero_iff localFlags peerFlags hlen]
  constructor
  · intro h
    by_cases hl : ∀ x ∈ localFlags, x = 0
    · have hp : ¬ ∀ p ∈ peerFlags, ∀ x ∈ p, x = 0 := fun hp => h ⟨hl, hp⟩
      push_neg at hp
      obtain ⟨p, hpm, x, hx, hxne⟩ := hp
      exact ⟨p, List.mem_cons_of_mem _ hpm, x, hx, hxne⟩
    · push_neg at hl
      obtain ⟨x, hx, hxne⟩ := hl
      exact ⟨localFlags, List.mem_cons_self _ _, x, hx, hxne⟩
  · rintro ⟨w, hw, x, hx, hxne⟩ ⟨hl, hp⟩
    rcases List.mem_cons.mp hw with rfl | hw2
    · exact hxne (hl x hx)
    · exact hxne (hp w hw2 x hx)

theorem specCombinedOverflow_eq_zero_iff (localFlags : List ℕ)
    (peerFlags : List (List ℕ)) :
    specCombinedOverflow localFlags peerFlags = 0 ↔
      (∀ x ∈ localFlags, x = 0) ∧ ∀ p ∈ peerFlags, ∀ x ∈ p, x = 0 := by
  unfold specCombinedOverflow
  rw [allReduceMax_eq_zero_iff]
  have hflag : ∀ l : List ℕ,
      ((if l.all (· == 0) then 0 else 1) = 0) ↔ ∀ x ∈ l, x = 0 := by
    intro l
    split
    · next h => simpa using fun x hx => by simpa using List.all_eq_true.mp h x hx
    · next h =>
      simp only [one_ne_zero, false_iff]
      intro hall
      exact h (List.all_eq_true.mpr fun x hx => by simpa using hall x hx)
  rw [hflag]
  constructor
  · rintro ⟨h1, h2⟩
    refine ⟨h1, fun p hp => (hflag p).mp (h2 _ (List.mem_map.mpr ⟨p, hp, rfl⟩))⟩
  · rintro ⟨h1, h2⟩
    refine ⟨h1, ?_⟩
    intro y hy
    obtain ⟨p, hp, rfl⟩ := List.mem_map.mp hy
    exact (hflag p).mpr (h2 p hp)

/-- C7: the combined overflow value that `update` feeds into the scale-update
routine is nonzero exactly when some flag of some worker in the model-parallel
group is nonzero; the implementation's per-flag max-reduction followed by
summation is, for the overflow decision, equivalent to the spec's local
logical OR followed by a single group max-reduction; and any two workers whose
views of the group are permutations of one another reach the same decision. -/
theorem overflow_decision_equiv (localFlags : List ℕ)
    (peerFlags : List (List ℕ))
    (hlen : ∀ p ∈ peerFlags, p.length = localFlags.length) :
    (foundInfCombined localFlags peerFlags ≠ 0 ↔
      ∃ w ∈ localFlags :: peerFlags, ∃ x ∈ w, x ≠ 0) ∧
    (foundInfCombined localFlags peerFlags ≠ 0 ↔
      specCombinedOverflow localFlags peerFlags ≠ 0) ∧
    ∀ localFlags2 peerFlags2,
      List.Perm (localFlags2 :: peerFlags2) (localFlags :: peerFlags) →
      (∀ p ∈ peerFlags2, p.length = localFlags2.length) →
      (foundInfCombined localFlags2 peerFlags2 ≠ 0 ↔
        foundInfCombined localFlags peerFlags ≠ 0) := by
  refine ⟨foundInfCombined_ne_zero_iff localFlags peerFlags hlen, ?_, ?_⟩
  · rw [ne_eq, ne_eq, foundInfCombined_eq_zero_iff localFlags peerFlags hlen,
      specCombinedOverflow_eq_zero_iff localFlags peerFlags]
  · intro l2 p2 hperm hlen2
    rw [foundInfCombined_ne_zero_iff localFlags peerFlags hlen,
      foundInfCombined_ne_zero_iff l2 p2 hlen2]
    constructor
    · rintro ⟨w, hw, hx⟩
      exact ⟨w, hperm.mem_iff.mp hw, hx⟩
    · rintro ⟨w, hw, hx⟩
      exact ⟨w, hperm.mem_iff.mpr hw, hx⟩

/-- Witness for C7: one peer with a nonzero flag in its second position. -/
theorem overflow_decision_equiv_witness :
    (foundInfCombined [0, 0] [[0, 1]] ≠ 0 ↔
      ∃ w ∈ [0, 0] :: [[0, 1]], ∃ x ∈ w, x ≠ 0) ∧
    (foundInfCombined [0, 0] [[0, 1]] ≠ 0 ↔
      specCombinedOverflow [0, 0] [[0, 1]] ≠ 0) := by
  have h := overflow_decision_equiv [0, 0] [[0, 1]] (by decide)
  exact ⟨h.1, h.2.1⟩

theorem ampUpdateScale_pos (scale : ℚ) (gt fi : ℕ) (gf bf : ℚ) (gi : ℕ)
    (hs : 0 < scale) (hgf : 0 < gf) (hbf : 0 < bf) :
    0 < (ampUpdateScale scale gt fi gf bf gi).1 := by
  unfold ampUpdateScale
  split
  · exact mul_pos hs hbf
  · dsimp only
    split
    · exact mul_pos hs hgf
    · exact hs

theorem update_preserves_params (s : GradScaler) (pf : List (List ℕ))
    (ns : Option ℚ) (t : GradScaler) (h : s.update pf ns = .ok t) :
    t.growthFactor = s.growthFactor ∧ t.backoffFactor = s.backoffFactor := by
  unfold GradScaler.update at h
  split at h
  · injection h with h
    subst h
    exact ⟨rfl, rfl⟩
  · cases ns with
    | some v =>
      injection h with h
      subst h
      exact ⟨rfl, rfl⟩
    | none =>
      dsimp only at h
      split at h
      · injection h with h
        subst h
        exact ⟨rfl, rfl⟩
      · cases h

theorem update_scale_pos (s : GradScaler) (pf : List (List ℕ))
    (ns : Option ℚ) (t : GradScaler) (h : s.update pf ns = .ok t)
    (hs : 0 < s.scale) (hg : 0 < s.growthFactor) (hb : 0 < s.backoffFactor)
    (hns : ∀ v, ns = some v → 0 < v) :
    0 < t.scale := by
  unfold GradScaler.update at h
  split at h
  · injection h with h
    subst h
    exact hs
  · cases ns with
    | some v =>
      injection h with h
      subst h
      exact hns v rfl
    | none =>
      dsimp only at h
      split at h
      · injection h with h
        subst h
        exact ampUpdateScale_pos s.scale s.growthTracker _ s.growthFactor
          s.backoffFactor s.growthInterval hs hg hb
      · cases h

/-- Counterexample for C8: from the default construction (growth factor
`2 > 1`, backoff factor `1/2 ∈ (0,1)`, initial scale `65536`), the single
operation `update(new_scale=-1)` drives the scale negative: the code accepts
any manual new scale without a positivity check. -/
theorem scale_positive_counterexample :
    (1 : ℚ) < 2 ∧ (0 : ℚ) < 1/2 ∧ (1/2 : ℚ) < 1 ∧
    (GradScaler.runOps GradScaler.init
      [ScalerOp.update (some (-1)) []]).scale < 0 := by
  refine ⟨by norm_num, by norm_num, by norm_num, ?_⟩
  norm_num [GradScaler.runOps, GradScaler.runOp, GradScaler.update,
    GradScaler.init]

/-- C8 amended: for every sequence of scale-controller operations from a state
with positive scale, growth factor above one and backoff factor in `(0,1)`,
in which every manual new scale passed to `update` is positive, the scale
never becomes zero or negative. -/
theorem scale_stays_positive (ops : List ScalerOp) :
    ∀ s : GradScaler, 0 < s.scale → 1 < s.growthFactor →
    0 < s.backoffFactor → s.backoffFactor < 1 →
    (∀ op ∈ ops, ∀ v pf, op = ScalerOp.update (some v) pf → 0 < v) →
    0 < (s.runOps ops).scale := by
  induction ops with
  | nil =>
    intro s hs _ _ _ _
    exact hs
  | cons op ops ih =>
    intro s hs hg hb0 hb1 hops
    have hg0 : 0 < s.growthFactor := lt_trans one_pos hg
    have hop := hops op (List.mem_cons_self op ops)
    have key : 0 < (s.runOp op).scale ∧
        (s.runOp op).growthFactor = s.growthFactor ∧
        (s.runOp op).backoffFactor = s.backoffFactor := by
      cases op with
      | step flags => exact ⟨hs, rfl, rfl⟩
      | update ns pf =>
        dsimp only [GradScaler.runOp]
        rcases hu : s.update pf ns with e | t
        · simp only [hu]
          exact ⟨hs, by trivial, by trivial⟩
        · simp only [hu]
          have hpres := update_preserves_params s pf ns t hu
          refine ⟨update_scale_pos s pf ns t hu hs hg0 hb0 ?_, hpres.1,
            hpres.2⟩
          intro v hv
          exact hop v pf (by rw [hv])
    show 0 < ((s.runOp op).runOps ops).scale
    exact ih (s.runOp op) key.1 (key.2.1.symm ▸ hg) (key.2.2.symm ▸ hb0)
      (key.2.2.symm ▸ hb1)
      (fun o ho v pf h => hops o (List.mem_cons_of_mem _ ho) v pf h)

/-- Witness for C8 amended: a concrete run with a recorded overflow, a
group-reduced update, a positive manual scale override and a growth update. -/
theorem scale_stays_positive_witness :
    0 < (GradScaler.runOps GradScaler.init
      [ScalerOp.step [1], ScalerOp.update none [[0]],
       ScalerOp.update (some 3) [], ScalerOp.step [0],
       ScalerOp.update none []]).scale := by
  apply scale_stays_positive _ GradScaler.init
  · norm_num [GradScaler.init]
  · norm_num [GradScaler.init]
  · norm_num [GradScaler.init]
  · norm_num [GradScaler.init]
  · intro op hop v pf h
    subst h
    simp only [List.mem_cons, List.not_mem_nil, or_false] at hop
    rcases hop with h1 | h1 | h1 | h1 | h1 <;> cases h1
    norm_num

/-! ## `NLPSaveRestoreConnector.save_to` (nlp_overrides.py lines 198-252) -/

/-- Python `f'{r:02d}'`: decimal rendering, zero-padded to width 2. -/
def pad2 (n : ℕ) : String :=
  if n < 10 then "0" ++ toString n else toString n

/-- Embeds posix `os.path.join(d, f)` for a relative second component (all
joins performed by `save_to` use relative file names). -/
def pathJoin (d f : String) : String :=
  if d = "" then f else if d.endsWith "/" then d ++ f else d ++ "/" ++ f

/-- Embeds posix `os.path.dirname`: everything up to the final slash, with
trailing slashes stripped unless the result consists only of slashes. -/
def dirname (p : String) : String :=
  let cs := p.toList
  let i := cs.length - (cs.reverse.takeWhile (fun c => c != '/')).length
  let head := cs.take i
  if head.any (fun c => c != '/') then
    String.mk ((head.reverse.dropWhile (fun c => c == '/')).reverse)
  else
    String.mk head

/-- The fields of the `AppState` singleton read by `save_to`. -/
structure AppState where
  model_parallel_size : Option ℕ
  tensor_model_parallel_rank : ℕ
  tensor_model_parallel_size : ℕ
  pipeline_model_parallel_size : ℕ
  data_parallel_rank : ℕ
  deriving Repr, DecidableEq

/-- Per-call environment of `save_to`: whether `torch.distributed` is
initialized, the fresh scratch directory handed out by
`tempfile.TemporaryDirectory()`, and whether the model carries artifacts. -/
structure SaveEnv where
  distInitialized : Bool
  tmpdir : String
  hasArtifacts : Bool
  deriving Repr, DecidableEq

/-- Observable actions of `save_to`, recorded in program order. -/
inductive SaveEvent where
  /-- `self._save_state_dict_to_disk(model.state_dict(), path)` -/
  | writeShard (path : String)
  /-- `torch.distributed.barrier()` -/
  | barrier
  /-- entry of `tempfile.TemporaryDirectory()`: fresh scratch dir created -/
  | makeTmpdir (path : String)
  /-- `os.makedirs(path)` -/
  | makeDirs (path : String)
  /-- `shutil.move(src, dst)` -/
  | move (src dst : String)
  /-- `model.to_config_file(path2yaml_file=path)` -/
  | writeConfig (path : String)
  /-- `self._handle_artifacts(model, nemo_file_folder=dir)` -/
  | handleArtifacts (dir : String)
  /-- `self._update_artifact_paths(model, path2yaml_file=path)` -/
  | updateArtifactPaths (configPath : String)
  /-- `self._make_nemo_file_from_folder(archivePath, sourceDir)` -/
  | makeArchive (archivePath sourceDir : String)
  /-- exit of `tempfile.TemporaryDirectory()`: scratch dir removed -/
  | removeTmpdir (path : String)
  /-- `logging.info("Saving .nemo for pipeline parallel is not implemented
  yet. Please use a conversion script.")` -/
  | logNotImplemented
  /-- fallback `super().save_to(model, save_path)` -/
  | defaultSave (path : String)
  deriving Repr, DecidableEq

/-- `NLPSaveRestoreConnector`; `model_weights_ckpt` and `model_config_yaml`
are the base-filename attributes inherited from `SaveRestoreConnector`. -/
structure NLPSaveRestoreConnector where
  model_weights_ckpt : String
  model_config_yaml : String
  deriving Repr, DecidableEq

/-- Lines 224-245 of the source: the leader's merge work inside
`tempfile.TemporaryDirectory()` — for each tensor-parallel rank create
`tmpdir/mp_rank_<NN>` and move the rank-tagged shard into it, write the
config (and artifacts) into the scratch root, package the scratch directory
into the archive at `savePath`, and (context-manager exit) remove the
scratch directory. -/
def leaderMerge (conn : NLPSaveRestoreConnector) (env : SaveEnv)
    (dir_name savePath : String) (T : ℕ) : List SaveEvent :=
  [SaveEvent.makeTmpdir env.tmpdir] ++
  (List.range T).flatMap
    (fun tp_rank =>
      [SaveEvent.makeDirs
        (pathJoin env.tmpdir ("mp_rank_" ++ pad2 tp_rank)),
       SaveEvent.move
        (pathJoin dir_name
          ("mp_rank_" ++ pad2 tp_rank ++ "_" ++ conn.model_weights_ckpt))
        (pathJoin (pathJoin env.tmpdir ("mp_rank_" ++ pad2 tp_rank))
          conn.model_weights_ckpt)]) ++
  [SaveEvent.writeConfig (pathJoin env.tmpdir conn.model_config_yaml)] ++
  (if env.hasArtifacts then
    [SaveEvent.handleArtifacts env.tmpdir,
     SaveEvent.updateArtifactPaths
      (pathJoin env.tmpdir conn.model_config_yaml)]
  else []) ++
  [SaveEvent.makeArchive savePath env.tmpdir,
   SaveEvent.removeTmpdir env.tmpdir]

/-- Embeds `NLPSaveRestoreConnector.save_to` as the list of observable
actions the calling worker performs.  Control flow follows the source
exactly; in particular the `else: logging.info(...)` at lines 246-249 is
attached (by its indentation) to the leader test of line 223, not to the
pipeline-size test of line 211, so a call with
`pipeline_model_parallel_size != 1` performs no action at all. -/
def saveTo (conn : NLPSaveRestoreConnector) (appState : AppState)
    (env : SaveEnv) (savePath : String) : List SaveEvent :=
  match appState.model_parallel_size with
  | some mps =>
    if 1 < mps then
      let dir_name := dirname savePath
      if appState.pipeline_model_parallel_size = 1 then
        (if appState.data_parallel_rank = 0 then
          [SaveEvent.writeShard (pathJoin dir_name
            ("mp_rank_" ++ pad2 appState.tensor_model_parallel_rank ++ "_" ++
              conn.model_weights_ckpt))]
        else []) ++
        (if env.distInitialized then [SaveEvent.barrier] else []) ++
        (if appState.tensor_model_parallel_rank = 0 ∧
            appState.data_parallel_rank = 0 then
          leaderMerge conn env dir_name savePath
            appState.tensor_model_parallel_size
        else
          [SaveEvent.logNotImplemented])
      else
        []
    else
      [SaveEvent.defaultSave savePath]
  | none => [SaveEvent.defaultSave savePath]

/-- Is the event a shard write (`_save_state_dict_to_disk`)? -/
def SaveEvent.isShardWrite : SaveEvent → Bool
  | .writeShard _ => true
  | _ => false

/-- Is the event part of the leader's merge/packaging work (scratch-directory
handling, shard moves, config/artifact writes, archiving)? -/
def SaveEvent.isPackaging : SaveEvent → Bool
  | .makeTmpdir _ => true
  | .makeDirs _ => true
  | .move _ _ => true
  | .writeConfig _ => true
  | .handleArtifacts _ => true
  | .updateArtifactPaths _ => true
  | .makeArchive _ _ => true
  | .removeTmpdir _ => true
  | _ => false

@[simp] theorem isShardWrite_writeShard (p : String) :
    (SaveEvent.writeShard p).isShardWrite = true := rfl

@[simp] theorem isShardWrite_barrier :
    SaveEvent.barrier.isShardWrite = false := rfl

@[simp] theorem isShardWrite_makeTmpdir (p : String) :
    (SaveEvent.makeTmpdir p).isShardWrite = false := rfl

@[simp] theorem isShardWrite_makeDirs (p : String) :
    (SaveEvent.makeDirs p).isShardWrite = false := rfl

@[simp] theorem isShardWrite_move (s d : String) :
    (SaveEvent.move s d).isShardWrite = false := rfl

@[simp] theorem isShardWrite_writeConfig (p : String) :
    (SaveEvent.writeConfig p).isShardWrite = false := rfl

@[simp] theorem isShardWrite_handleArtifacts (p : String) :
    (SaveEvent.handleArtifacts p).isShardWrite = false := rfl

@[simp] theorem isShardWrite_updateArtifactPaths (p : String) :
    (SaveEvent.updateArtifactPaths p).isShardWrite = false := rfl

@[simp] theorem isShardWrite_makeArchive (a s : String) :
    (SaveEvent.makeArchive a s).isShardWrite = false := rfl

@[simp] theorem isShardWrite_removeTmpdir (p : String) :
    (SaveEvent.removeTmpdir p).isShardWrite = false := rfl

@[simp] theorem isShardWrite_logNotImplemented :
    SaveEvent.logNotImplemented.isShardWrite = false := rfl

@[simp] theorem isShardWrite_defaultSave (p : String) :
    (SaveEvent.defaultSave p).isShardWrite = false := rfl

@[simp] theorem isPackaging_writeShard (p : String) :
    (SaveEvent.writeShard p).isPackaging = false := rfl

@[simp] theorem isPackaging_barrier :
    SaveEvent.barrier.isPackaging = false := rfl

@[simp] theorem isPackaging_makeTmpdir (p : String) :
    (SaveEvent.makeTmpdir p).isPackaging = true := rfl

@[simp] theorem isPackaging_makeDirs (p : String) :
    (SaveEvent.makeDirs p).isPackaging = true := rfl

@[simp] theorem isPackaging_move (s d : String) :
    (SaveEvent.move s d).isPackaging = true := rfl

@[simp] theorem isPackaging_writeConfig (p : String) :
    (SaveEvent.writeConfig p).isPackaging = true := rfl

@[simp] theorem isPackaging_handleArtifacts (p : String) :
    (SaveEvent.handleArtifacts p).isPackaging = true := rfl

@[simp] theorem isPackaging_updateArtifactPaths (p : String) :
    (SaveEvent.updateArtifactPaths p).isPackaging = true := rfl

@[simp] theorem isPackaging_makeArchive (a s : String) :
    (SaveEvent.makeArchive a s).isPackaging = true := rfl

@[simp] theorem isPackaging_removeTmpdir (p : String) :
    (SaveEvent.removeTmpdir p).isPackaging = true := rfl

@[simp] theorem isPackaging_logNotImplemented :
    SaveEvent.logNotImplemented.isPackaging = false := rfl

@[simp] theorem isPackaging_defaultSave (p : String) :
    (SaveEvent.defaultSave p).isPackaging = false := rfl

theorem filter_flatMap {α β : Type} (l : List α) (f : α → List β)
    (p : β → Bool) :
    (l.flatMap f).filter p = l.flatMap fun x => (f x).filter p := by
  induction l with
  | nil => rfl
  | cons a as ih => simp [List.flatMap_cons, List.filter_append, ih]

/-- C3 at the failing configuration: with model parallelism in use and
`pipeline_model_parallel_size = 2`, `save_to` produces no archive and writes
no shard files — but it also emits no log/skip signal at all: the
`logNotImplemented` action is unreachable in this configuration because the
`else` of lines 246-249 is indented under the leader test of line 223 rather
than under the pipeline-size test of line 211, contradicting the log
message's own text. -/
theorem pipeline_parallel_save_is_silent :
    saveTo ⟨"model_weights.ckpt", "model_config.yaml"⟩ ⟨some 4, 0, 2, 2, 0⟩
      ⟨true, "scratch", false⟩ "ckpts/model.nemo" = [] ∧
    SaveEvent.logNotImplemented ∉
      saveTo ⟨"model_weights.ckpt", "model_config.yaml"⟩ ⟨some 4, 0, 2, 2, 0⟩
        ⟨true, "scratch", false⟩ "ckpts/model.nemo" := by
  refine ⟨rfl, ?_⟩
  intro h
  rw [show saveTo ⟨"model_weights.ckpt", "model_config.yaml"⟩
      ⟨some 4, 0, 2, 2, 0⟩ ⟨true, "scratch", false⟩ "ckpts/model.nemo" = []
    from rfl] at h
  exact List.not_mem_nil _ h

theorem flatMap_singleton_map {α β : Type} (l : List α) (f : α → β) :
    (l.flatMap fun x => [f x]) = l.map f := by
  induction l with
  | nil => rfl
  | cons a as ih => simp [List.flatMap_cons, ih]

theorem flatMap_range_ite_zero {α : Type} (D : ℕ) (hD : 0 < D) (l : List α) :
    ((List.range D).flatMap fun d => if d = 0 then l else []) = l := by
  obtain ⟨E, rfl⟩ := Nat.exists_eq_succ_of_ne_zero (Nat.pos_iff_ne_zero.mp hD)
  rw [List.range_succ_eq_map, List.flatMap_cons, List.flatMap_map]
  simp

/-- C4: with model parallelism in use and a single pipeline stage, exactly
the workers with `data_parallel_rank = 0` write a shard, named
`mp_rank_<tensor-parallel rank, zero-padded to 2 digits>_<base weights
filename>` in the destination directory; collected over the whole (tensor ×
data) grid this yields one shard per tensor-parallel rank — exactly
`tensor_parallel_size` shard files, even when `data_parallel_size > 1`. -/
theorem shard_writes_one_per_tensor_rank (conn : NLPSaveRestoreConnector)
    (env : SaveEnv) (savePath : String) (m T D : ℕ)
    (hm : 1 < m) (hD : 0 < D) :
    (∀ tp dp,
      (saveTo conn ⟨some m, tp, T, 1, dp⟩ env savePath).filter
          SaveEvent.isShardWrite =
        if dp = 0 then
          [SaveEvent.writeShard (pathJoin (dirname savePath)
            ("mp_rank_" ++ pad2 tp ++ "_" ++ conn.model_weights_ckpt))]
        else []) ∧
    ((List.range T).flatMap fun tp => (List.range D).flatMap fun dp =>
        (saveTo conn ⟨some m, tp, T, 1, dp⟩ env savePath).filter
          SaveEvent.isShardWrite) =
      ((List.range T).map fun tp => SaveEvent.writeShard
        (pathJoin (dirname savePath)
          ("mp_rank_" ++ pad2 tp ++ "_" ++ conn.model_weights_ckpt))) ∧
    ((List.range T).flatMap fun tp => (List.range D).flatMap fun dp =>
        (saveTo conn ⟨some m, tp, T, 1, dp⟩ env savePath).filter
          SaveEvent.isShardWrite).length = T := by
  have hfilter : ∀ tp dp,
      (saveTo conn ⟨some m, tp, T, 1, dp⟩ env savePath).filter
          SaveEvent.isShardWrite =
        if dp = 0 then
          [SaveEvent.writeShard (pathJoin (dirname savePath)
            ("mp_rank_" ++ pad2 tp ++ "_" ++ conn.model_weights_ckpt))]
        else [] := by
    intro tp dp
    simp only [saveTo, hm, if_true, List.filter_append]
    split <;> split <;> split <;>
      simp [SaveEvent.isShardWrite, leaderMerge, List.filter_eq_nil_iff,
        List.mem_flatMap] <;>
      refine ⟨fun a => ?_, fun a => ?_⟩ <;>
      first
        | (rintro _ _ (rfl | rfl) <;> rfl)
        | (rintro _ (rfl | rfl) <;> rfl)
  have hcol : ((List.range T).flatMap fun tp =>
      (List.range D).flatMap fun dp =>
        (saveTo conn ⟨some m, tp, T, 1, dp⟩ env savePath).filter
          SaveEvent.isShardWrite) =
      ((List.range T).map fun tp => SaveEvent.writeShard
        (pathJoin (dirname savePath)
          ("mp_rank_" ++ pad2 tp ++ "_" ++ conn.model_weights_ckpt))) := by
    have : ∀ tp, ((List.range D).flatMap fun dp =>
        (saveTo conn ⟨some m, tp, T, 1, dp⟩ env savePath).filter
          SaveEvent.isShardWrite) =
        [SaveEvent.writeShard (pathJoin (dirname savePath)
          ("mp_rank_" ++ pad2 tp ++ "_" ++ conn.model_weights_ckpt))] := by
      intro tp
      calc ((List.range D).flatMap fun dp =>
          (saveTo conn ⟨some m, tp, T, 1, dp⟩ env savePath).filter
            SaveEvent.isShardWrite)
          = (List.range D).flatMap fun dp =>
            if dp = 0 then
              [SaveEvent.writeShard (pathJoin (dirname savePath)
                ("mp_rank_" ++ pad2 tp ++ "_" ++ conn.model_weights_ckpt))]
            else [] := by
              refine List.flatMap_congr ?_
              intro dp _
              exact hfilter tp dp
        _ = _ := flatMap_range_ite_zero D hD _
    calc ((List.range T).flatMap fun tp =>
        (List.range D).flatMap fun dp =>
          (saveTo conn ⟨some m, tp, T, 1, dp⟩ env savePath).filter
            SaveEvent.isShardWrite)
        = (List.range T).flatMap fun tp =>
          [SaveEvent.writeShard (pathJoin (dirname savePath)
            ("mp_rank_" ++ pad2 tp ++ "_" ++ conn.model_weights_ckpt))] := by
            refine List.flatMap_congr ?_
            intro tp _
            exact this tp
      _ = _ := flatMap_singleton_map _ _
  refine ⟨hfilter, hcol, ?_⟩
  rw [hcol]
  simp

/-- Witness for C4: a 2×2 grid produces exactly 2 shard files. -/
theorem shard_writes_one_per_tensor_rank_witness :
    ((List.range 2).flatMap fun tp => (List.range 2).flatMap fun dp =>
      (saveTo ⟨"model_weights.ckpt", "model_config.yaml"⟩
        ⟨some 2, tp, 2, 1, dp⟩ ⟨true, "scratch", false⟩
        "ckpts/model.nemo").filter SaveEvent.isShardWrite).length = 2 :=
  (shard_writes_one_per_tensor_rank ⟨"model_weights.ckpt",
    "model_config.yaml"⟩ ⟨true, "scratch", false⟩ "ckpts/model.nemo" 2 2 2
    (by norm_num) (by norm_num)).2.2

/-- C5: with model parallelism in use and a single pipeline stage, the global
leader (tensor-parallel rank 0, data-parallel rank 0) performs exactly the
merge sequence — create a fresh scratch directory, move each of the
`tensor_parallel_size` rank-tagged shard files into
`scratch/mp_rank_<NN>/<base>` subdirectories, write the config (and
artifacts) into the scratch root, package the scratch directory into one
archive at the destination path and remove the scratch directory — while
every other worker performs no packaging action. -/
theorem leader_merges_nonleaders_do_not (conn : NLPSaveRestoreConnector)
    (env : SaveEnv) (savePath : String) (m T : ℕ) (hm : 1 < m) :
    ((saveTo conn ⟨some m, 0, T, 1, 0⟩ env savePath).filter
        SaveEvent.isPackaging =
      [SaveEvent.makeTmpdir env.tmpdir] ++
      ((List.range T).flatMap fun tp =>
        [SaveEvent.makeDirs (pathJoin env.tmpdir ("mp_rank_" ++ pad2 tp)),
         SaveEvent.move
          (pathJoin (dirname savePath)
            ("mp_rank_" ++ pad2 tp ++ "_" ++ conn.model_weights_ckpt))
          (pathJoin (pathJoin env.tmpdir ("mp_rank_" ++ pad2 tp))
            conn.model_weights_ckpt)]) ++
      [SaveEvent.writeConfig (pathJoin env.tmpdir conn.model_config_yaml)] ++
      (if env.hasArtifacts then
        [SaveEvent.handleArtifacts env.tmpdir,
         SaveEvent.updateArtifactPaths
          (pathJoin env.tmpdir conn.model_config_yaml)]
      else []) ++
      [SaveEvent.makeArchive savePath env.tmpdir,
       SaveEvent.removeTmpdir env.tmpdir]) ∧
    (∀ tp dp, ¬(tp = 0 ∧ dp = 0) →
      (saveTo conn ⟨some m, tp, T, 1, dp⟩ env savePath).filter
        SaveEvent.isPackaging = []) := by
  constructor
  · simp [saveTo, leaderMerge, hm, List.filter_append, filter_flatMap,
      apply_ite (List.filter SaveEvent.isPackaging)]
  · intro tp dp hno
    simp [saveTo, leaderMerge, hm, hno, List.filter_append, filter_flatMap,
      apply_ite (List.filter SaveEvent.isPackaging)]

/-- Witness for C5: a non-leader worker (tensor-parallel rank 1) performs no
packaging action. -/
theorem leader_merges_nonleaders_do_not_witness :
    (saveTo ⟨"model_weights.ckpt", "model_config.yaml"⟩ ⟨some 2, 1, 2, 1, 0⟩
      ⟨true, "scratch", false⟩ "ckpts/model.nemo").filter
      SaveEvent.isPackaging = [] :=
  (leader_merges_nonleaders_do_not ⟨"model_weights.ckpt",
    "model_config.yaml"⟩ ⟨true, "scratch", false⟩ "ckpts/model.nemo" 2 2
    (by norm_num)).2 1 0 (by simp)

/-- C9: with model parallelism in use, a single pipeline stage and the
distributed runtime initialized, every worker's trace splits as (possible
shard write) ++ barrier ++ remainder: everything before the barrier is a
shard write (and no packaging action), and nothing after it is a shard
write — so the leader never starts moving shard files before the barrier.
When the runtime is not initialized, the barrier is skipped. -/
theorem barrier_between_write_and_merge (conn : NLPSaveRestoreConnector)
    (env : SaveEnv) (savePath : String) (m T tp dp : ℕ) (hm : 1 < m) :
    (env.distInitialized = true →
      ∃ pre post,
        saveTo conn ⟨some m, tp, T, 1, dp⟩ env savePath =
          pre ++ SaveEvent.barrier :: post ∧
        (∀ e ∈ pre, e.isShardWrite = true) ∧
        (∀ e ∈ post, e.isShardWrite = false) ∧
        (∀ e ∈ pre, e.isPackaging = false)) ∧
    (env.distInitialized = false →
      SaveEvent.barrier ∉ saveTo conn ⟨some m, tp, T, 1, dp⟩ env savePath) := by
  constructor
  · intro hinit
    refine ⟨(if dp = 0 then
        [SaveEvent.writeShard (pathJoin (dirname savePath)
          ("mp_rank_" ++ pad2 tp ++ "_" ++ conn.model_weights_ckpt))]
      else []),
      (if tp = 0 ∧ dp = 0 then
        leaderMerge conn env (dirname savePath) savePath T
      else [SaveEvent.logNotImplemented]), ?_, ?_, ?_, ?_⟩
    · simp [saveTo, hm, hinit]
    · intro e he
      split at he <;> simp_all
    · intro e he
      split at he <;> cases e <;>
        simp_all [leaderMerge, List.mem_flatMap]
    · intro e he
      split at he <;> simp_all
  · intro hinit
    simp [saveTo, hm, hinit]
    split <;> simp [leaderMerge, List.mem_flatMap]

/-- Witness for C9: with the runtime not initialized, no barrier appears in
the trace. -/
theorem barrier_between_write_and_merge_witness :
    SaveEvent.barrier ∉ saveTo ⟨"model_weights.ckpt", "model_config.yaml"⟩
      ⟨some 2, 1, 2, 1, 0⟩ ⟨false, "scratch", false⟩ "ckpts/model.nemo" :=
  (barrier_between_write_and_merge ⟨"model_weights.ckpt",
    "model_config.yaml"⟩ ⟨false, "scratch", false⟩ "ckpts/model.nemo" 2 2 1 0
    (by norm_num)).2 rfl

/-! ## `GlobalBatchDataFetcher` (nlp_overrides.py lines 425-444) -/

/-- Embeds the list comprehension
`[next(self.dataloader_iter) for _ in range(n)]`: draws `n` consecutive items
from the iterator; `none` models the uncaught `StopIteration` raised when the
iterator runs out mid-comprehension. -/
def drawMicroBatches {α : Type} : ℕ → List α → Option (List α × List α)
  | 0, it => some ([], it)
  | _ + 1, [] => none
  | n + 1, x :: it =>
    match drawMicroBatches n it with
    | some (batch, it2) => some (x :: batch, it2)
    | none => none

/-- State of `GlobalBatchDataFetcher`: the number of micro batches captured
from `get_num_microbatches()` at construction, the dataloader iterator
(remaining items) and the `fetched` counter. -/
structure GlobalBatchDataFetcher (α : Type) where
  num_micro_batches : ℕ
  dataloader_iter : List α
  fetched : ℕ
  deriving Repr, DecidableEq

/-- `GlobalBatchDataFetcher.__init__`: `self.num_micro_batches =
get_num_microbatches()`, captured once at construction. -/
def GlobalBatchDataFetcher.mkFetcher {α : Type} (getNumMicrobatches : ℕ)
    (it : List α) : GlobalBatchDataFetcher α :=
  { num_micro_batches := getNumMicrobatches
    dataloader_iter := it
    fetched := 0 }

/-- Embeds `GlobalBatchDataFetcher._fetch_next_batch`: assembles
`num_micro_batches` consecutive items into one global batch and increments
`fetched` by one. -/
def GlobalBatchDataFetcher.fetchNextBatch {α : Type}
    (f : GlobalBatchDataFetcher α) :
    Option (List α × GlobalBatchDataFetcher α) :=
  match drawMicroBatches f.num_micro_batches f.dataloader_iter with
  | some (batch, it2) =>
      some (batch,
        { f with dataloader_iter := it2, fetched := f.fetched + 1 })
  | none => none

theorem drawMicroBatches_eq {α : Type} (n : ℕ) (it : List α) :
    drawMicroBatches n it =
      if n ≤ it.length then some (it.take n, it.drop n) else none := by
  induction n generalizing it with
  | zero => simp [drawMicroBatches]
  | succ n ih =>
    cases it with
    | nil => simp [drawMicroBatches]
    | cons x it =>
      rw [drawMicroBatches, ih]
      by_cases h : n ≤ it.length
      · rw [if_pos h, if_pos (by simpa using Nat.succ_le_succ h)]
        rfl
      · rw [if_neg h, if_neg (by simpa using h)]

/-- C10: every successful `_fetch_next_batch` call draws exactly
`num_micro_batches` consecutive items from the dataloader iterator (the
captured value is left unchanged), assembles them into one list, and
increments `fetched` by exactly 1; the call succeeds precisely when the
iterator still holds that many items. -/
theorem fetch_next_batch_spec {α : Type} (f : GlobalBatchDataFetcher α) :
    (∀ batch f2, f.fetchNextBatch = some (batch, f2) →
      batch = f.dataloader_iter.take f.num_micro_batches ∧
      batch.length = f.num_micro_batches ∧
      f2.dataloader_iter = f.dataloader_iter.drop f.num_micro_batches ∧
      f2.num_micro_batches = f.num_micro_batches ∧
      f2.fetched = f.fetched + 1) ∧
    (f.fetchNextBatch.isSome ↔
      f.num_micro_batches ≤ f.dataloader_iter.length) := by
  constructor
  · intro batch f2 h
    rw [GlobalBatchDataFetcher.fetchNextBatch, drawMicroBatches_eq] at h
    by_cases hle : f.num_micro_batches ≤ f.dataloader_iter.length
    · rw [if_pos hle] at h
      simp only [Option.some.injEq, Prod.mk.injEq] at h
      obtain ⟨rfl, rfl⟩ := h
      exact ⟨rfl, List.length_take_of_le hle, rfl, rfl, rfl⟩
    · rw [if_neg hle] at h
      cases h
  · rw [GlobalBatchDataFetcher.fetchNextBatch, drawMicroBatches_eq]
    by_cases hle : f.num_micro_batches ≤ f.dataloader_iter.length
    · simp [hle]
    · simp [hle]

/-- Witness for C10: a fetcher with 2 micro batches per global batch over a
three-element iterator. -/
theorem fetch_next_batch_spec_witness :
    [10, 20] = ([10, 20, 30] : List ℕ).take 2 ∧
    ([10, 20] : List ℕ).length = 2 ∧
    (⟨2, [30], 1⟩ : GlobalBatchDataFetcher ℕ).dataloader_iter =
      ([10, 20, 30] : List ℕ).drop 2 ∧
    (⟨2, [30], 1⟩ : GlobalBatchDataFetcher ℕ).num_micro_batches = 2 ∧
    (⟨2, [30], 1⟩ : GlobalBatchDataFetcher ℕ).fetched = 0 + 1 :=
  (fetch_next_batch_spec
    (GlobalBatchDataFetcher.mkFetcher 2 [10, 20, 30])).1
    [10, 20] ⟨2, [30], 1⟩ (by decide)

end NeMo
